import Mathlib

/-!
Shallow embedding of the string-analysis service (utils.js, db.js, routes.js)
and proofs of the specification claims.

Strings are modelled as Lean `String` (sequences of Unicode scalar values,
matching JS iteration by code point via `[...value]` / `for..of`).  JS numbers
that flow through filters are modelled as exact unnormalized rationals
(`JSNum`; no float rounding is exercised by the claims).  The SHA-256 digest
is an external library call (node `crypto`), so every store-level definition
is parameterised by an arbitrary digest function `hash : String → String`.
-/

deriving instance DecidableEq for Except

namespace StrSvc

/-! ### utils.js: metrics -/

/-- Function `charLength` (utils.js): `[...value].length`, the number of code points. -/
def charLength (value : String) : Nat :=
  value.toList.length

/-- One step of `charFrequencyMap`'s loop: `map[ch] = (map[ch] || 0) + 1`.
JS objects keep string keys in insertion order; an existing key is updated in
place, a new key is appended at the end. -/
def bump : List (Char × Nat) → Char → List (Char × Nat)
  | [], c => [(c, 1)]
  | (k, v) :: rest, c =>
    if k = c then (k, v + 1) :: rest else (k, v) :: bump rest c

/-- Function `charFrequencyMap` (utils.js): fold `bump` over the code points of the
string, starting from the empty object. -/
def charFrequencyMap (value : String) : List (Char × Nat) :=
  value.toList.foldl bump []

/-- Key lookup in the modelled JS object (`freq[ch]`, `hasOwnProperty`). -/
def fmLookup : List (Char × Nat) → Char → Option Nat
  | [], _ => none
  | (k, v) :: rest, c => if k = c then some v else fmLookup rest c

/-- Sum of all counts stored in a frequency map. -/
def fmSum (m : List (Char × Nat)) : Nat :=
  (m.map (fun p => p.2)).sum

/-- Function `uniqueCharacters` (utils.js): `new Set([...value]).size`, the number of
distinct code points. -/
def uniqueCharacters (value : String) : Nat :=
  value.toList.dedup.length

/-- Token counting for `wordCount` (utils.js): trimming, splitting on
whitespace runs and counting the non-empty tokens amounts to counting the
maximal non-whitespace runs, tracked with an in-word flag. -/
def wordCountAux : List Char → Bool → Nat
  | [], _ => 0
  | c :: rest, inWord =>
    if c.isWhitespace then wordCountAux rest false
    else (if inWord then 0 else 1) + wordCountAux rest true

/-- Function `wordCount` (utils.js): the number of maximal whitespace-delimited
non-empty tokens; empty / whitespace-only input yields 0. -/
def wordCount (value : String) : Nat :=
  wordCountAux value.toList false

/-- JS `String.prototype.toLowerCase`, modelled as the simple (ASCII) case
fold applied to each code point. -/
def jsToLower (s : String) : String :=
  ⟨s.toList.map Char.toLower⟩

/-- The two-pointer loop of `isPalindrome` (utils.js):
`for (let i = 0, j = arr.length - 1; i < j; i++, j--)`.  The loop is modelled
with an explicit fuel argument (any fuel with `j - i ≤ 2 * fuel` reaches the
crossing point); `isPalindrome` passes `arr.length`, which is always enough. -/
def palinAux (arr : List Char) : Nat → Nat → Nat → Bool
  | _, _, 0 => true
  | i, j, fuel + 1 =>
    if i < j then
      if arr.getD i ' ' ≠ arr.getD j ' ' then false
      else palinAux arr (i + 1) (j - 1) fuel
    else true

/-- Function `isPalindrome` (utils.js): lowercase, spread into code points, compare
symmetric pairs from both ends inward.  No whitespace/punctuation stripping. -/
def isPalindrome (value : String) : Bool :=
  let arr := (jsToLower value).toList
  palinAux arr 0 (arr.length - 1) arr.length

/-! ### utils.js: analyzeString -/

/-- The `properties` object computed by `analyzeString`. -/
structure Props where
  length : Nat
  is_palindrome : Bool
  unique_characters : Nat
  word_count : Nat
  sha256_hash : String
  character_frequency_map : List (Char × Nat)
deriving DecidableEq

/-- Function `analyzeString` (utils.js), parameterised by the digest function
(`sha256Hex` is a node `crypto` call, external to the core). -/
def analyzeString (hash : String → String) (value : String) : Props :=
  { length := charLength value
    is_palindrome := isPalindrome value
    unique_characters := uniqueCharacters value
    word_count := wordCount value
    sha256_hash := hash value
    character_frequency_map := charFrequencyMap value }

/-! ### Frequency-map lemmas -/

theorem fmLookup_bump_self (m : List (Char × Nat)) (c : Char) :
    fmLookup (bump m c) c = some ((fmLookup m c).getD 0 + 1) := by
  induction m with
  | nil => simp [fmLookup, bump]
  | cons p rest ih =>
    obtain ⟨k, v⟩ := p
    by_cases h : k = c
    · subst h
      simp [fmLookup, bump]
    · simp [fmLookup, bump, h, ih]

theorem fmLookup_bump_other (m : List (Char × Nat)) (c d : Char) (hcd : d ≠ c) :
    fmLookup (bump m c) d = fmLookup m d := by
  induction m with
  | nil => simp [fmLookup, bump, Ne.symm hcd]
  | cons p rest ih =>
    obtain ⟨k, v⟩ := p
    by_cases h : k = c
    · subst h
      simp [fmLookup, bump, Ne.symm hcd]
    · by_cases h2 : k = d <;> simp [fmLookup, bump, h, h2, ih, hcd]

theorem fmSum_bump (m : List (Char × Nat)) (c : Char) :
    fmSum (bump m c) = fmSum m + 1 := by
  induction m with
  | nil => simp [fmSum, bump]
  | cons p rest ih =>
    obtain ⟨k, v⟩ := p
    by_cases h : k = c
    · subst h
      simp [fmSum, bump]
      omega
    · simp [fmSum, bump, h] at ih ⊢
      omega

theorem fmLookup_foldl_getD (l : List Char) (m : List (Char × Nat)) (c : Char) :
    (fmLookup (l.foldl bump m) c).getD 0 = (fmLookup m c).getD 0 + l.count c := by
  induction l generalizing m with
  | nil => simp
  | cons a rest ih =>
    by_cases h : a = c
    · subst h
      simp [List.foldl_cons, ih, fmLookup_bump_self, List.count_cons]
      omega
    · simp [List.foldl_cons, ih, fmLookup_bump_other _ _ _ (Ne.symm h),
        List.count_cons, h]

theorem fmLookup_foldl_isSome (l : List Char) (m : List (Char × Nat)) (c : Char) :
    (fmLookup (l.foldl bump m) c).isSome = ((fmLookup m c).isSome || l.contains c) := by
  induction l generalizing m with
  | nil => simp
  | cons a rest ih =>
    by_cases h : a = c
    · subst h
      simp [List.foldl_cons, ih, fmLookup_bump_self]
    · simp [List.foldl_cons, ih, fmLookup_bump_other _ _ _ (Ne.symm h), h, Ne.symm h]

theorem fmSum_foldl (l : List Char) (m : List (Char × Nat)) :
    fmSum (l.foldl bump m) = fmSum m + l.length := by
  induction l generalizing m with
  | nil => simp
  | cons a rest ih =>
    simp [List.foldl_cons, ih, fmSum_bump]
    omega

theorem fmLookup_freqList (l : List Char) (c : Char) :
    fmLookup (l.foldl bump []) c =
      if l.count c = 0 then none else some (l.count c) := by
  have h1 := fmLookup_foldl_getD l [] c
  have h2 := fmLookup_foldl_isSome l [] c
  simp [fmLookup] at h1 h2
  by_cases hc : c ∈ l
  · have hs : (fmLookup (l.foldl bump []) c).isSome = true := by
      rw [h2]; simpa using hc
    obtain ⟨n, hn⟩ := Option.isSome_iff_exists.mp hs
    rw [hn] at h1
    simp at h1
    have hcnt : l.count c ≠ 0 := by
      have := List.count_pos_iff.mpr hc
      omega
    rw [hn, if_neg hcnt, h1]
  · have hs : (fmLookup (l.foldl bump []) c).isSome = false := by
      rw [h2]; simpa using hc
    have hnone : fmLookup (l.foldl bump []) c = none := by
      cases hval : fmLookup (l.foldl bump []) c
      · rfl
      · rw [hval] at hs; simp at hs
    have hcnt : l.count c = 0 := List.count_eq_zero.mpr hc
    rw [hnone, if_pos hcnt]

theorem charFrequencyMap_lookup (s : String) (c : Char) :
    fmLookup (charFrequencyMap s) c =
      if s.toList.count c = 0 then none else some (s.toList.count c) :=
  fmLookup_freqList s.toList c

theorem freqList_key_iff (l : List Char) (c : Char) :
    (fmLookup (l.foldl bump []) c).isSome = true ↔ c ∈ l := by
  rw [fmLookup_freqList]
  by_cases h : l.count c = 0
  · simp [h]
    exact List.count_eq_zero.mp h
  · simp [h]
    exact List.count_pos_iff.mp (Nat.pos_of_ne_zero h)

theorem freqList_val_pos (l : List Char) (c : Char) (n : Nat)
    (h : fmLookup (l.foldl bump []) c = some n) : 1 ≤ n := by
  rw [fmLookup_freqList] at h
  by_cases h0 : l.count c = 0
  · rw [if_pos h0] at h
    cases h
  · rw [if_neg h0] at h
    have hn : l.count c = n := by injection h
    omega

theorem charFrequencyMap_key_iff (s : String) (c : Char) :
    (fmLookup (charFrequencyMap s) c).isSome = true ↔ c ∈ s.toList :=
  freqList_key_iff s.toList c

theorem charFrequencyMap_val_pos (s : String) (c : Char) (n : Nat)
    (h : fmLookup (charFrequencyMap s) c = some n) : 1 ≤ n :=
  freqList_val_pos s.toList c n h

theorem fmSum_charFrequencyMap (s : String) :
    fmSum (charFrequencyMap s) = charLength s := by
  have := fmSum_foldl s.toList []
  simpa [charFrequencyMap, charLength, fmSum] using this

/-- Claim C9: the code-point length of a string equals its distinct-code-point
count exactly when every code point of the string occurs only once. -/
theorem claim_C9 (s : String) :
    charLength s = uniqueCharacters s ↔ s.toList.Nodup := by
  unfold charLength uniqueCharacters
  constructor
  · intro h
    have hsub := List.dedup_sublist s.toList
    have heq : s.toList.dedup = s.toList := hsub.eq_of_length h.symm
    have := List.nodup_dedup s.toList
    rwa [heq] at this
  · intro h
    rw [List.dedup_eq_self.mpr h]

/-- Claim C10: on any string, the frequency map's keys are exactly the code
points occurring in the string, every stored count is at least 1, the counts
sum to the code-point length, and hence on a record produced by
`analyzeString` a character is a key of `character_frequency_map` exactly when
it occurs in the stored value with nonzero count. -/
theorem claim_C10 (hash : String → String) (s : String) :
    (analyzeString hash s).character_frequency_map = charFrequencyMap s ∧
    (∀ c : Char, (fmLookup (charFrequencyMap s) c).isSome = true ↔ c ∈ s.toList) ∧
    (∀ c n, fmLookup (charFrequencyMap s) c = some n → 1 ≤ n) ∧
    fmSum (charFrequencyMap s) = charLength s ∧
    (∀ c : Char,
      (fmLookup ((analyzeString hash s).character_frequency_map) c).isSome = true
        ↔ 0 < s.toList.count c) := by
  refine ⟨rfl, charFrequencyMap_key_iff s, charFrequencyMap_val_pos s,
    fmSum_charFrequencyMap s, fun c => ?_⟩
  show (fmLookup (charFrequencyMap s) c).isSome = true ↔ 0 < s.toList.count c
  rw [charFrequencyMap_key_iff s c]
  exact ⟨fun h => List.count_pos_iff.mpr h, fun h => List.count_pos_iff.mp h⟩

/-- Witness for C10 at concrete inputs: the frequency map of `"aab"` stores the
count 2 for `'a'` (which is at least 1), and `'b'` is a key since it occurs. -/
theorem claim_C10_witness :
    (1 : Nat) ≤ 2 ∧
    (fmLookup ((analyzeString (fun v => v) "aab").character_frequency_map) 'b').isSome
      = true :=
  ⟨(claim_C10 (fun v => v) "aab").2.2.1 'a' 2 (by decide),
   ((claim_C10 (fun v => v) "aab").2.2.2.2 'b').mpr (by decide)⟩

/-! ### Palindrome loop -/

theorem palinAux_spec (arr : List Char) (fuel i j : Nat)
    (hinv : i + j = arr.length - 1) (hfuel : j - i ≤ 2 * fuel) :
    palinAux arr i j fuel = true ↔
      ∀ k, i ≤ k → k ≤ j → arr.getD k ' ' = arr.getD (arr.length - 1 - k) ' ' := by
  induction fuel generalizing i j with
  | zero =>
    constructor
    · intro _ k hik hkj
      have hk : arr.length - 1 - k = k := by omega
      rw [hk]
    · intro _
      rfl
  | succ fuel ih =>
    by_cases hij : i < j
    · rw [palinAux, if_pos hij]
      by_cases hchar : arr.getD i ' ' = arr.getD j ' '
      · rw [if_neg (fun hne => hne hchar)]
        rw [ih (i + 1) (j - 1) (by omega) (by omega)]
        constructor
        · intro h k hik hkj
          by_cases hki : k = i
          · subst hki
            have hkk : arr.length - 1 - k = j := by omega
            rw [hkk]
            exact hchar
          · by_cases hkj2 : k = j
            · subst hkj2
              have hkk : arr.length - 1 - k = i := by omega
              rw [hkk]
              exact hchar.symm
            · exact h k (by omega) (by omega)
        · intro h k hik hkj
          exact h k (by omega) (by omega)
      · rw [if_pos hchar]
        constructor
        · intro hft
          cases hft
        · intro hall
          have hmir := hall i le_rfl (le_of_lt hij)
          have hj : arr.length - 1 - i = j := by omega
          rw [hj] at hmir
          exact absurd hmir hchar
    · rw [palinAux, if_neg hij]
      simp only [true_iff]
      intro k hik hkj
      have hk : arr.length - 1 - k = k := by omega
      rw [hk]

theorem palinAux_full (l : List Char) :
    palinAux l 0 (l.length - 1) l.length = true ↔
      ∀ i, i < l.length → l.getD i ' ' = l.getD (l.length - 1 - i) ' ' := by
  rw [palinAux_spec l l.length 0 (l.length - 1) (by omega) (by omega)]
  constructor
  · intro h i hi
    exact h i (Nat.zero_le i) (by omega)
  · intro h k _ hk1
    by_cases hL : k < l.length
    · exact h k hL
    · have hL0 : l.length = 0 := by omega
      have hnil : l = [] := List.length_eq_zero.mp hL0
      subst hnil
      simp [List.getD]

/-- Claim C5: `isPalindrome` lowercases the string, spreads it into code
points, and compares symmetric pairs from both ends inward; it is true exactly
when every position agrees with its mirror position (so the empty string is a
palindrome); spaces are not stripped, so `"Racecar"` passes and
`"race a car"` fails. -/
theorem claim_C5 (s : String) :
    (isPalindrome s = true ↔
      ∀ i, i < (jsToLower s).toList.length →
        (jsToLower s).toList.getD i ' ' =
          (jsToLower s).toList.getD ((jsToLower s).toList.length - 1 - i) ' ') ∧
    isPalindrome "" = true ∧
    isPalindrome "Racecar" = true ∧
    isPalindrome "race a car" = false :=
  ⟨palinAux_full (jsToLower s).toList, by decide, by decide, by decide⟩

/-! ### utils.js: parseNaturalLanguage

The regexes of the parser are modelled by explicit left-to-right scanners
over the code-point list, with JS leftmost-match semantics: the first
position at which the whole pattern matches wins, and `\d+` captures the
maximal digit run. -/

/-- JS `String.prototype.trim`, modelled at the code-point level. -/
def jsTrim (s : String) : String :=
  ⟨((s.toList.dropWhile Char.isWhitespace).reverse.dropWhile
      Char.isWhitespace).reverse⟩

/-- JS regex `\w` (ASCII word character). -/
def wordChar (c : Char) : Bool :=
  decide ('a' ≤ c ∧ c ≤ 'z') || decide ('A' ≤ c ∧ c ≤ 'Z')
    || decide ('0' ≤ c ∧ c ≤ '9') || c == '_'

/-- The character class `[a-z0-9]` of the `containing X` / quoted patterns. -/
def lowerAlnum (c : Char) : Bool :=
  decide ('a' ≤ c ∧ c ≤ 'z') || decide ('0' ≤ c ∧ c ≤ '9')

/-- Numeric value of a digit run (`parseInt(match, 10)` on `\d+`). -/
def digitsVal (ds : List Char) : Nat :=
  ds.foldl (fun a c => a * 10 + (c.toNat - 48)) 0

/-- Leftmost match of `pat(\d+)`: the first position where `pat` occurs
followed by a digit; the capture is the maximal digit run there. -/
def scanNum (pat : List Char) : List Char → Option Nat
  | [] => none
  | c :: rest =>
    if pat.isPrefixOf (c :: rest)
        && (((c :: rest).drop pat.length).headD ' ').isDigit then
      some (digitsVal (((c :: rest).drop pat.length).takeWhile Char.isDigit))
    else scanNum pat rest

/-- The regex `text.match(/longer than (\d+)/)` (utils.js). -/
def longerMatch (text : String) : Option Nat :=
  scanNum "longer than ".toList text.toList

/-- The regex `text.match(/at least (\d+)/)` (utils.js). -/
def atLeastMatch (text : String) : Option Nat :=
  scanNum "at least ".toList text.toList

/-- The regex `text.match(/shorter than (\d+)/)` (utils.js). -/
def shorterMatch (text : String) : Option Nat :=
  scanNum "shorter than ".toList text.toList

/-- Boundary `\b` after a word `w`: the character following the occurrence, if any, is
not a word character (the words used all end in a word character). -/
def boundaryAfter (w l : List Char) : Bool :=
  match l.drop w.length with
  | [] => true
  | d :: _ => !wordChar d

/-- Scan for `\b w \b` keeping track of whether the previous character was a
word character (the words used all start with a word character). -/
def containsWordAux (w : List Char) : Bool → List Char → Bool
  | _, [] => false
  | prevW, c :: rest =>
    (!prevW && w.isPrefixOf (c :: rest) && boundaryAfter w (c :: rest))
      || containsWordAux w (wordChar c) rest

/-- Test `/\b w \b/.test(text)` for a word (or word sequence) `w`. -/
def containsWord (w text : String) : Bool :=
  containsWordAux w.toList false text.toList

/-- Plain substring test (`/first vowel/.test(text)`). -/
def containsSub (pat : List Char) : List Char → Bool
  | [] => pat.isEmpty
  | c :: rest => pat.isPrefixOf (c :: rest) || containsSub pat rest

/-- Leftmost match of `pat(C)` where `C` is a character class: first position
where `pat` occurs followed by a character of the class. -/
def scanCharAfter (pat : List Char) (cls : Char → Bool) : List Char → Option Char
  | [] => none
  | c :: rest =>
    if pat.isPrefixOf (c :: rest) then
      match ((c :: rest).drop pat.length).head? with
      | some d => if cls d then some d else scanCharAfter pat cls rest
      | none => scanCharAfter pat cls rest
    else scanCharAfter pat cls rest

/-- A single or double quote (code points 39 and 34). -/
def isQuote (c : Char) : Bool :=
  c.val == 39 || c.val == 34

/-- Leftmost match of `/['"]([a-z0-9])['"]/`. -/
def scanQuoted : List Char → Option Char
  | q1 :: c :: q2 :: rest =>
    if isQuote q1 && lowerAlnum c && isQuote q2 then some c
    else scanQuoted (c :: q2 :: rest)
  | _ => none

/-- The `contains` chain of `parseNaturalLanguage` (utils.js): the phrase
pattern, then the simple pattern, then a quoted character, then the
`first vowel` heuristic; the first sub-pattern that matches wins. -/
def containsChar (text : String) : Option Char :=
  match scanCharAfter "containing the letter ".toList wordChar text.toList with
  | some c => some c
  | none =>
    match scanCharAfter "containing ".toList lowerAlnum text.toList with
    | some c => some c
    | none =>
      match scanQuoted text.toList with
      | some c => some c
      | none =>
        if containsSub "first vowel".toList text.toList then some 'a' else none

/-- JS numbers as they flow through the filters, modelled as exact rationals
(numerator over positive denominator, not normalized); every comparison goes
through cross-multiplication, matching JS value comparison on the exact
values the claims exercise. -/
structure JSNum where
  num : Int
  den : Nat
deriving DecidableEq

/-- The JS number `n` for a natural `n`. -/
def JSNum.ofNat (n : Nat) : JSNum :=
  ⟨n, 1⟩

/-- The JS number `i` for an integer `i`. -/
def JSNum.ofInt (i : Int) : JSNum :=
  ⟨i, 1⟩

/-- JS `<` on numbers. -/
def jsLt (a b : JSNum) : Bool :=
  decide (a.num * b.den < b.num * a.den)

/-- JS `<=` on numbers. -/
def jsLe (a b : JSNum) : Bool :=
  decide (a.num * b.den ≤ b.num * a.den)

/-- JS `===` on numbers (value equality). -/
def jsEqNum (a b : JSNum) : Bool :=
  decide (a.num * b.den = b.num * a.den)

/-- JS `Math.max` on two numbers. -/
def jsMax (a b : JSNum) : JSNum :=
  if jsLt a b then b else a

/-- The ephemeral FilterSet accumulated by the parser and consumed by the
filter evaluator.  Numeric fields are JS numbers. -/
structure Filters where
  is_palindrome : Option Bool
  min_length : Option JSNum
  max_length : Option JSNum
  word_count : Option JSNum
  contains_character : Option Char
deriving DecidableEq

/-- Check `Object.keys(filters).length === 0` (no filter field was set). -/
def Filters.isEmpty (f : Filters) : Bool :=
  f.is_palindrome.isNone && f.min_length.isNone && f.max_length.isNone
    && f.word_count.isNone && f.contains_character.isNone

/-- Both bounds set and `min_length > max_length`. -/
def Filters.conflict (f : Filters) : Bool :=
  match f.min_length, f.max_length with
  | some a, some b => jsLt b a
  | _, _ => false

/-- The filter set with no field present. -/
def emptyFilters : Filters :=
  ⟨none, none, none, none, none⟩

/-- The combined effect of the `longer than N` and `at least N` rules on
`min_length`: `longer than N` sets `N + 1`, then `at least N` sets
`Math.max(filters.min_length ?? 0, N)`. -/
def minLengthRule (text : String) : Option JSNum :=
  let m1 : Option JSNum :=
    match longerMatch text with
    | some n => some (.ofNat (n + 1))
    | none => none
  match atLeastMatch text with
  | some n => some (jsMax (m1.getD (.ofNat 0)) (.ofNat n))
  | none => m1

/-- The rule section of `parseNaturalLanguage` (utils.js): accumulate all
pattern rules into one filter object. -/
def buildFilters (text : String) : Filters :=
  let f1 :=
    if containsWord "palindromic" text || containsWord "palindrome" text then
      { emptyFilters with is_palindrome := some true }
    else emptyFilters
  let f2 :=
    if containsWord "single word" text || containsWord "one word" text then
      { f1 with word_count := some (.ofNat 1) }
    else f1
  let f3 := { f2 with min_length := minLengthRule text }
  let f4 :=
    match shorterMatch text with
    | some n => { f3 with max_length := some (.ofInt ((n : Int) - 1)) }
    | none => f3
  match containsChar text with
  | some c => { f4 with contains_character := some c }
  | none => f4

/-- Parse failures: `InvalidQuery` (HTTP 400 in the code) and
`ConflictingFilters` (HTTP 422). -/
inductive ParseErr where
  | invalidQuery
  | conflictingFilters
deriving DecidableEq

/-- Function `parseNaturalLanguage` (utils.js).  The argument is `none` when the input
is not a string (`typeof query !== 'string'`). -/
def parseNaturalLanguage : Option String → Except ParseErr Filters
  | none => .error .invalidQuery
  | some q =>
    if q = "" then .error .invalidQuery
    else
      let text := jsTrim (jsToLower q)
      let f := buildFilters text
      if f.isEmpty then .error .invalidQuery
      else if f.conflict then .error .conflictingFilters
      else .ok f

/-! ### Parser lemmas and claims C2, C3, C4 -/

theorem jsLt_ofNat (a b : Nat) : jsLt (.ofNat a) (.ofNat b) = true ↔ a < b := by
  simp only [jsLt, JSNum.ofNat, decide_eq_true_eq, Nat.cast_one, mul_one]
  omega

theorem jsLe_ofNat (a b : Nat) : jsLe (.ofNat a) (.ofNat b) = true ↔ a ≤ b := by
  simp only [jsLe, JSNum.ofNat, decide_eq_true_eq, Nat.cast_one, mul_one]
  omega

theorem Filters.isEmpty_iff (f : Filters) :
    f.isEmpty = true ↔
      f.is_palindrome = none ∧ f.min_length = none ∧ f.max_length = none ∧
        f.word_count = none ∧ f.contains_character = none := by
  obtain ⟨p, mn, mx, wc, cc⟩ := f
  simp [Filters.isEmpty, Option.isNone_iff_eq_none, and_assoc]

theorem Filters.conflict_eq_false_iff (f : Filters) :
    f.conflict = false ↔
      ∀ a b, f.min_length = some a → f.max_length = some b → jsLe a b = true := by
  obtain ⟨p, mn, mx, wc, cc⟩ := f
  cases mn with
  | none => simp [Filters.conflict]
  | some a =>
    cases mx with
    | none => simp [Filters.conflict]
    | some b => simp [Filters.conflict, jsLt, jsLe, not_lt]

/-- Claim C2: `parseNaturalLanguage` fails with `InvalidQuery` on a non-string
or empty query and when no pattern rule set any field; it fails with
`ConflictingFilters` when both derived bounds satisfy
`min_length > max_length`; otherwise it returns the accumulated filter set.
Concretely, an unrecognizable query is `InvalidQuery`, and a query deriving
`min_length = 20` with `max_length = 5` is `ConflictingFilters`. -/
theorem claim_C2 :
    parseNaturalLanguage none = .error .invalidQuery ∧
    parseNaturalLanguage (some "") = .error .invalidQuery ∧
    (∀ q : String, q ≠ "" → ∀ f, f = buildFilters (jsTrim (jsToLower q)) →
      ((f.is_palindrome = none ∧ f.min_length = none ∧ f.max_length = none ∧
          f.word_count = none ∧ f.contains_character = none) →
        parseNaturalLanguage (some q) = .error .invalidQuery) ∧
      (∀ a b, f.min_length = some a → f.max_length = some b → jsLt b a = true →
        parseNaturalLanguage (some q) = .error .conflictingFilters) ∧
      (¬(f.is_palindrome = none ∧ f.min_length = none ∧ f.max_length = none ∧
          f.word_count = none ∧ f.contains_character = none) →
        (∀ a b, f.min_length = some a → f.max_length = some b → jsLe a b = true) →
        parseNaturalLanguage (some q) = .ok f)) ∧
    parseNaturalLanguage (some "gibberish query with no patterns") =
      .error .invalidQuery ∧
    parseNaturalLanguage (some "strings longer than 19 and shorter than 6") =
      .error .conflictingFilters := by
  refine ⟨rfl, by decide, ?_, by decide, by decide⟩
  intro q hq f hf
  subst hf
  refine ⟨?_, ?_, ?_⟩
  · rintro ⟨h1, h2, h3, h4, h5⟩
    have he : (buildFilters (jsTrim (jsToLower q))).isEmpty = true := by
      simp [Filters.isEmpty, h1, h2, h3, h4, h5]
    simp [parseNaturalLanguage, hq, he]
  · intro a b hmin hmax hba
    have he : (buildFilters (jsTrim (jsToLower q))).isEmpty = false := by
      simp [Filters.isEmpty, hmin]
    have hc : (buildFilters (jsTrim (jsToLower q))).conflict = true := by
      unfold Filters.conflict
      rw [hmin, hmax]
      exact hba
    simp [parseNaturalLanguage, hq, he, hc]
  · intro hne hnc
    have he : (buildFilters (jsTrim (jsToLower q))).isEmpty = false := by
      cases h : (buildFilters (jsTrim (jsToLower q))).isEmpty
      · rfl
      · exact absurd ((Filters.isEmpty_iff _).mp h) hne
    have hc : (buildFilters (jsTrim (jsToLower q))).conflict = false :=
      (Filters.conflict_eq_false_iff _).mpr hnc
    simp [parseNaturalLanguage, hq, he, hc]

/-- Witness for C2: `"all single word palindromic strings"` is non-empty and
sets fields without bounds, so the parser returns its accumulated filters. -/
theorem claim_C2_witness :
    parseNaturalLanguage (some "all single word palindromic strings") =
      .ok ⟨some true, none, none, some (.ofNat 1), none⟩ := by
  have h := (claim_C2.2.2.1 "all single word palindromic strings" (by decide)
      (buildFilters (jsTrim (jsToLower "all single word palindromic strings")))
      rfl).2.2
  have hres := h (by decide) ?hb
  case hb =>
    intro a b ha hb
    have hmin : (buildFilters (jsTrim (jsToLower
        "all single word palindromic strings"))).min_length = none := by decide
    rw [hmin] at ha
    cases ha
  exact hres.trans (by decide)

/-- Claim C3: the `longer than N` rule sets `min_length = N + 1`; the
`at least N` rule sets `min_length` to the maximum of the previously set
`min_length` (0 when unset) and `N`, so it can only raise a bound already set
by `longer than`; `parseQuery("strings longer than 10 characters")` yields
exactly `{min_length: 11}`. -/
theorem claim_C3 :
    (∀ text n, longerMatch text = some n → atLeastMatch text = none →
      minLengthRule text = some (.ofNat (n + 1))) ∧
    (∀ text n m, longerMatch text = some n → atLeastMatch text = some m →
      minLengthRule text = some (jsMax (.ofNat (n + 1)) (.ofNat m))) ∧
    (∀ text m, longerMatch text = none → atLeastMatch text = some m →
      minLengthRule text = some (jsMax (.ofNat 0) (.ofNat m))) ∧
    (∀ text n m r, longerMatch text = some n → atLeastMatch text = some m →
      minLengthRule text = some r → jsLe (.ofNat (n + 1)) r = true) ∧
    parseNaturalLanguage (some "strings longer than 10 characters") =
      .ok ⟨none, some (.ofNat 11), none, none, none⟩ := by
  refine ⟨?_, ?_, ?_, ?_, by decide⟩
  · intro text n hl ha
    unfold minLengthRule
    rw [hl, ha]
  · intro text n m hl ha
    unfold minLengthRule
    rw [hl, ha]
    rfl
  · intro text m hl ha
    unfold minLengthRule
    rw [hl, ha]
    rfl
  · intro text n m r hl ha hr
    unfold minLengthRule at hr
    rw [hl, ha] at hr
    simp at hr
    subst hr
    unfold jsMax
    by_cases hlt : jsLt (JSNum.ofNat (n + 1)) (JSNum.ofNat m) = true
    · rw [if_pos hlt]
      rw [jsLt_ofNat] at hlt
      rw [jsLe_ofNat]
      omega
    · rw [if_neg hlt]
      rw [jsLe_ofNat]

/-- Witness for C3: on `"strings longer than 10 characters"` only the
`longer than` rule fires and `min_length` becomes 11. -/
theorem claim_C3_witness :
    minLengthRule "strings longer than 10 characters" = some (.ofNat 11) :=
  claim_C3.1 "strings longer than 10 characters" 10 (by decide) (by decide)

/-- Claim C4: the containment rule tries `containing the letter X` (X a word
character), then `containing X` (X alphanumeric), then any quoted single
character, then the fixed phrase `first vowel` ↦ `'a'`; the first sub-pattern
that matches wins.  On `"strings containing the letter z"` the phrase pattern
gives `'z'` even though the simple pattern alone would give `'t'`, and
`"palindromic strings that contain the first vowel"` parses to
`{is_palindrome: true, contains_character: 'a'}`. -/
theorem claim_C4 :
    (∀ text c,
      scanCharAfter "containing the letter ".toList wordChar text.toList = some c →
      containsChar text = some c) ∧
    (∀ text c,
      scanCharAfter "containing the letter ".toList wordChar text.toList = none →
      scanCharAfter "containing ".toList lowerAlnum text.toList = some c →
      containsChar text = some c) ∧
    (∀ text c,
      scanCharAfter "containing the letter ".toList wordChar text.toList = none →
      scanCharAfter "containing ".toList lowerAlnum text.toList = none →
      scanQuoted text.toList = some c →
      containsChar text = some c) ∧
    (∀ text,
      scanCharAfter "containing the letter ".toList wordChar text.toList = none →
      scanCharAfter "containing ".toList lowerAlnum text.toList = none →
      scanQuoted text.toList = none →
      containsSub "first vowel".toList text.toList = true →
      containsChar text = some 'a') ∧
    containsChar "strings containing the letter z" = some 'z' ∧
    scanCharAfter "containing ".toList lowerAlnum
      "strings containing the letter z".toList = some 't' ∧
    parseNaturalLanguage (some "palindromic strings that contain the first vowel") =
      .ok ⟨some true, none, none, none, some 'a'⟩ := by
  refine ⟨?_, ?_, ?_, ?_, by decide, by decide, by decide⟩
  · intro text c h
    unfold containsChar
    rw [h]
  · intro text c h1 h2
    unfold containsChar
    rw [h1, h2]
  · intro text c h1 h2 h3
    unfold containsChar
    rw [h1, h2, h3]
  · intro text h1 h2 h3 h4
    unfold containsChar
    rw [h1, h2, h3]
    show (if containsSub "first vowel".toList text.toList then some 'a' else none)
      = some 'a'
    rw [if_pos h4]

/-- Witness for C4: on the `first vowel` example the three explicit
sub-patterns all fail and the heuristic yields `'a'`. -/
theorem claim_C4_witness :
    containsChar "palindromic strings that contain the first vowel" = some 'a' :=
  claim_C4.2.2.2.1 "palindromic strings that contain the first vowel"
    (by decide) (by decide) (by decide) (by decide)

/-! ### db.js: the record store, and the routes.js handlers over it -/

/-- A stored record (assembled by `POST /strings` in routes.js). -/
structure Record where
  id : String
  value : String
  properties : Props
  created_at : String
deriving DecidableEq

/-- The store: a JS object mapping id to record, keys in insertion order. -/
abbrev Db := List (String × Record)

/-- Function `getById` (db.js): `DB[id] ?? null`. -/
def getById : Db → String → Option Record
  | [], _ => none
  | (k, v) :: rest, i => if k = i then some v else getById rest i

/-- Function `insertRecord` (db.js): throws `EXISTS` when the id is present, otherwise
adds the record (a new object key is appended at the end). -/
def insertRecord (db : Db) (r : Record) : Except String Db :=
  if (getById db r.id).isSome then .error "EXISTS"
  else .ok (db ++ [(r.id, r)])

/-- Function `deleteById` (db.js): `none` models `return false` (id absent); on
success the key is removed. -/
def deleteById (db : Db) (i : String) : Option Db :=
  if (getById db i).isSome then some (db.filter (fun p => p.1 != i))
  else none

/-- Route-level error kinds (HTTP 409 and 404 in routes.js). -/
inductive ApiErr where
  | alreadyExists
  | notFound
deriving DecidableEq

/-- Handler `POST /strings` (routes.js): analyze the value, reject a duplicate id,
insert the new record.  The second component is the store after the call. -/
def createString (hash : String → String) (db : Db) (value created_at : String) :
    Except ApiErr Record × Db :=
  let props := analyzeString hash value
  let id := props.sha256_hash
  if (getById db id).isSome then (.error .alreadyExists, db)
  else
    let r : Record := ⟨id, value, props, created_at⟩
    match insertRecord db r with
    | .ok db2 => (.ok r, db2)
    | .error _ => (.error .alreadyExists, db)

/-- Handler `GET /strings/:string_value` (routes.js): hash the decoded string and
look the id up. -/
def lookupByString (hash : String → String) (db : Db) (s : String) :
    Except ApiErr Record :=
  match getById db (hash s) with
  | some r => .ok r
  | none => .error .notFound

/-- Handler `DELETE /strings/:string_value` (routes.js). -/
def deleteByString (hash : String → String) (db : Db) (s : String) :
    Except ApiErr Unit × Db :=
  match deleteById db (hash s) with
  | some db2 => (.ok (), db2)
  | none => (.error .notFound, db)

theorem getById_append_self (db : Db) (i : String) (r : Record)
    (h : getById db i = none) : getById (db ++ [(i, r)]) i = some r := by
  induction db with
  | nil => simp [getById]
  | cons p rest ih =>
    obtain ⟨k, v⟩ := p
    by_cases hk : k = i
    · simp [getById, hk] at h
    · simp only [List.cons_append, getById, if_neg hk] at h ⊢
      exact ih h

theorem getById_filter_self (db : Db) (i : String) :
    getById (db.filter (fun p => p.1 != i)) i = none := by
  induction db with
  | nil => rfl
  | cons p rest ih =>
    obtain ⟨k, v⟩ := p
    by_cases hk : k = i
    · simpa [List.filter_cons, hk] using ih
    · simpa [List.filter_cons, hk, getById] using ih

theorem createString_eq (hash : String → String) (db : Db)
    (value created_at : String) :
    createString hash db value created_at =
      if (getById db (hash value)).isSome then (.error .alreadyExists, db)
      else (.ok ⟨hash value, value, analyzeString hash value, created_at⟩,
        db ++ [(hash value, ⟨hash value, value, analyzeString hash value, created_at⟩)]) := by
  by_cases h : (getById db (hash value)).isSome
  · simp [createString, insertRecord, analyzeString, h]
  · simp [createString, insertRecord, analyzeString, h]

/-- Claim C6: a second insert of the same string (before any deletion) fails
with `AlreadyExists`, the store is unchanged by the failed insert, and the
originally inserted record is still present unmodified. -/
theorem claim_C6 (hash : String → String) (db : Db) (s t1 t2 : String)
    (r : Record) (db1 : Db)
    (h : createString hash db s t1 = (.ok r, db1)) :
    createString hash db1 s t2 = (.error .alreadyExists, db1) ∧
    getById db1 (hash s) = some r := by
  rw [createString_eq] at h
  by_cases hdup : (getById db (hash s)).isSome
  · rw [if_pos hdup] at h
    simp at h
  · rw [if_neg hdup] at h
    simp only [Prod.mk.injEq, Except.ok.injEq] at h
    obtain ⟨hr, hdb⟩ := h
    have hnone : getById db (hash s) = none := by
      cases hval : getById db (hash s)
      · rfl
      · rw [hval] at hdup
        simp at hdup
    have hget : getById db1 (hash s) = some r := by
      rw [← hdb, ← hr]
      exact getById_append_self db (hash s) _ hnone
    refine ⟨?_, hget⟩
    rw [createString_eq, if_pos (by simp [hget])]

/-- Witness for C6: inserting `"abc"` into the empty store and inserting it
again is rejected with the store unchanged. -/
theorem claim_C6_witness :
    createString (fun v => v)
        [("abc", ⟨"abc", "abc", analyzeString (fun v => v) "abc", "t1"⟩)]
        "abc" "t2"
      = (.error .alreadyExists,
         [("abc", ⟨"abc", "abc", analyzeString (fun v => v) "abc", "t1"⟩)]) :=
  (claim_C6 (fun v => v) [] "abc" "t1" "t2"
    ⟨"abc", "abc", analyzeString (fun v => v) "abc", "t1"⟩
    [("abc", ⟨"abc", "abc", analyzeString (fun v => v) "abc", "t1"⟩)]
    (by rw [createString_eq]; rfl)).1

/-- Claim C7: after inserting a string, looking it up by the same original
string returns the very record that was inserted, and after deleting it by
the same string a subsequent lookup fails with `NotFound`. -/
theorem claim_C7 (hash : String → String) (db : Db) (s t : String)
    (r : Record) (db1 : Db)
    (h : createString hash db s t = (.ok r, db1)) :
    lookupByString hash db1 s = .ok r ∧
    ∃ db2, deleteByString hash db1 s = (.ok (), db2) ∧
      lookupByString hash db2 s = .error .notFound := by
  rw [createString_eq] at h
  by_cases hdup : (getById db (hash s)).isSome
  · rw [if_pos hdup] at h
    simp at h
  · rw [if_neg hdup] at h
    simp only [Prod.mk.injEq, Except.ok.injEq] at h
    obtain ⟨hr, hdb⟩ := h
    have hnone : getById db (hash s) = none := by
      cases hval : getById db (hash s)
      · rfl
      · rw [hval] at hdup
        simp at hdup
    have hget : getById db1 (hash s) = some r := by
      rw [← hdb, ← hr]
      exact getById_append_self db (hash s) _ hnone
    refine ⟨by simp [lookupByString, hget], ⟨db1.filter (fun p => p.1 != hash s), ?_, ?_⟩⟩
    · simp [deleteByString, deleteById, hget]
    · simp [lookupByString, getById_filter_self]

/-- Witness for C7: the `"abc"` record is found again by its string and gone
after deletion. -/
theorem claim_C7_witness :
    lookupByString (fun v => v)
        [("abc", ⟨"abc", "abc", analyzeString (fun v => v) "abc", "t1"⟩)] "abc"
      = .ok ⟨"abc", "abc", analyzeString (fun v => v) "abc", "t1"⟩ :=
  (claim_C7 (fun v => v) [] "abc" "t1"
    ⟨"abc", "abc", analyzeString (fun v => v) "abc", "t1"⟩
    [("abc", ⟨"abc", "abc", analyzeString (fun v => v) "abc", "t1"⟩)]
    (by rw [createString_eq]; rfl)).1

/-! ### db.js: listRecords filter evaluator (claim C1)

`listRecords` filters `Object.values(DB)` with a per-record predicate and
sorts by `created_at` descending; the predicate is modelled here (no claim
concerns the ordering). -/

/-- The per-record filter callback inside `listRecords` (db.js): each early
`return false` becomes a conjunct. -/
def matchesRecord (r : Record) (f : Filters) : Bool :=
  (match f.is_palindrome with
   | some b => r.properties.is_palindrome == b
   | none => true) &&
  (match f.min_length with
   | some m => !jsLt (.ofNat r.properties.length) m
   | none => true) &&
  (match f.max_length with
   | some m => !jsLt m (.ofNat r.properties.length)
   | none => true) &&
  (match f.word_count with
   | some w => jsEqNum (.ofNat r.properties.word_count) w
   | none => true) &&
  (match f.contains_character with
   | some c => (fmLookup r.properties.character_frequency_map c).isSome
   | none => true)

theorem jsLt_eq_false_iff (a b : JSNum) : jsLt a b = false ↔ jsLe b a = true := by
  simp [jsLt, jsLe, not_lt]

theorem freq_isSome_iff_pos (value : String) (c : Char) :
    (fmLookup (charFrequencyMap value) c).isSome = true ↔
      ∃ n, fmLookup (charFrequencyMap value) c = some n ∧ 0 < n := by
  constructor
  · intro h
    obtain ⟨n, hn⟩ := Option.isSome_iff_exists.mp h
    exact ⟨n, hn, charFrequencyMap_val_pos value c n hn⟩
  · rintro ⟨n, hn, _⟩
    simp [hn]

/-- Claim C1: on a stored record (one whose properties were computed by
`analyzeString`), the filter callback accepts exactly when every present
filter field agrees with the record's properties: boolean equality for
`is_palindrome`, `length >= min_length`, `length <= max_length`, equality for
`word_count`, and `contains_character` being a key with nonzero count in the
frequency map; absent fields impose no constraint. -/
theorem claim_C1 (hash : String → String) (value created_at : String)
    (f : Filters) (r : Record)
    (hr : r = ⟨hash value, value, analyzeString hash value, created_at⟩) :
    matchesRecord r f = true ↔
      ((∀ b, f.is_palindrome = some b → r.properties.is_palindrome = b) ∧
       (∀ m, f.min_length = some m →
         jsLe m (.ofNat r.properties.length) = true) ∧
       (∀ m, f.max_length = some m →
         jsLe (.ofNat r.properties.length) m = true) ∧
       (∀ w, f.word_count = some w →
         jsEqNum (.ofNat r.properties.word_count) w = true) ∧
       (∀ c, f.contains_character = some c →
         ∃ n, fmLookup r.properties.character_frequency_map c = some n ∧ 0 < n)) := by
  subst hr
  obtain ⟨p, mn, mx, wc, cc⟩ := f
  cases p <;> cases mn <;> cases mx <;> cases wc <;> cases cc <;>
    simp [matchesRecord, analyzeString, jsLt_eq_false_iff, freq_isSome_iff_pos,
      Bool.not_eq_true, and_assoc]

/-- Witness for C1: the record for `"aba"` passes the filter set
`{is_palindrome: true, min_length: 2, max_length: 5, word_count: 1,
contains_character: 'a'}`. -/
theorem claim_C1_witness :
    matchesRecord ⟨"aba", "aba", analyzeString (fun v => v) "aba", "t"⟩
      ⟨some true, some (.ofNat 2), some (.ofNat 5), some (.ofNat 1), some 'a'⟩
      = true :=
  (claim_C1 (fun v => v) "aba" "t"
      ⟨some true, some (.ofNat 2), some (.ofNat 5), some (.ofNat 1), some 'a'⟩
      ⟨"aba", "aba", analyzeString (fun v => v) "aba", "t"⟩ rfl).mpr
    ⟨fun b hb => by cases hb; decide,
     fun m hm => by cases hm; decide,
     fun m hm => by cases hm; decide,
     fun w hw => by cases hw; decide,
     fun c hc => by cases hc; exact ⟨2, by decide, by decide⟩⟩

/-! ### routes.js: GET /strings structured filter validation (claim C8) -/

/-- Decimal part of JS `Number(...)`: an optional integer part, an optional
`.` fraction part, at least one digit in total.  (The model covers the decimal
literals the claims exercise; JS additionally accepts hex, exponent and
`Infinity` forms, none of which appear here.) -/
def parseDecimal (l : List Char) : Option JSNum :=
  let ip := l.takeWhile Char.isDigit
  let rest := l.dropWhile Char.isDigit
  match rest with
  | [] => if ip.isEmpty then none else some ⟨digitsVal ip, 1⟩
  | d :: frac =>
    if d == '.' && frac.all Char.isDigit && !(ip.isEmpty && frac.isEmpty) then
      some ⟨digitsVal ip * (10 ^ frac.length) + digitsVal frac, 10 ^ frac.length⟩
    else none

/-- JS `Number(string)`: trim; empty means 0; optional sign then a decimal
literal; anything else is `NaN`, modelled as `none`. -/
def jsNumber (s : String) : Option JSNum :=
  let t := jsTrim s
  if t = "" then some ⟨0, 1⟩
  else
    match t.toList with
    | '-' :: rest => (parseDecimal rest).map (fun r => ⟨-r.num, r.den⟩)
    | '+' :: rest => parseDecimal rest
    | l => parseDecimal l

/-- JS `String.prototype.length`: UTF-16 code units (astral code points
count as two). -/
def utf16Length (s : String) : Nat :=
  (s.toList.map (fun c => if c.val < 65536 then 1 else 2)).sum

/-- The raw query parameters of `GET /strings` (each present or absent;
present values are strings). -/
structure QueryParams where
  is_palindrome : Option String
  min_length : Option String
  max_length : Option String
  word_count : Option String
  contains_character : Option String

/-- Validation failures of `GET /strings` (both reported as HTTP 400 by the
code; the spec calls them `InvalidFilter` and `ConflictingFilters`). -/
inductive FilterErr where
  | invalidFilter
  | conflictingFilters
deriving DecidableEq

/-- The validation section of `GET /strings` (routes.js): each present field
is checked and converted in order, then the bounds are compared.  Note the
numeric checks reject only `NaN` (`Number.isNaN(n)`), exactly as the code
does. -/
def validateFilters (q : QueryParams) : Except FilterErr Filters := do
  let f1 : Filters ←
    match q.is_palindrome with
    | none => pure emptyFilters
    | some v =>
      let vl := jsToLower v
      if vl = "true" ∨ vl = "false" then
        pure { emptyFilters with is_palindrome := some (vl = "true") }
      else throw .invalidFilter
  let f2 : Filters ←
    match q.min_length with
    | none => pure f1
    | some v =>
      match jsNumber v with
      | none => throw .invalidFilter
      | some n => pure { f1 with min_length := some n }
  let f3 : Filters ←
    match q.max_length with
    | none => pure f2
    | some v =>
      match jsNumber v with
      | none => throw .invalidFilter
      | some n => pure { f2 with max_length := some n }
  let f4 : Filters ←
    match q.word_count with
    | none => pure f3
    | some v =>
      match jsNumber v with
      | none => throw .invalidFilter
      | some n => pure { f3 with word_count := some n }
  let f5 : Filters ←
    match q.contains_character with
    | none => pure f4
    | some v =>
      if utf16Length v = 1 then
        pure { f4 with contains_character := some (v.toList.headD ' ') }
      else throw .invalidFilter
  match f5.min_length, f5.max_length with
  | some a, some b => if jsLt b a then throw .conflictingFilters else pure f5
  | _, _ => pure f5

/-- Claim C8 (exhibiting the divergence): the structured-filter validation
accepts the non-integer `min_length=3.5` — `Number("3.5")` is not `NaN`, which
is all the code checks — and returns it as the filter value 35/10, while a
genuinely non-numeric value and a multi-character `contains_character` are
rejected, and a valid integer is accepted.  The code's own error message
(`min_length must be an integer`) says non-integers should have been
rejected. -/
theorem claim_C8 :
    validateFilters ⟨none, some "3.5", none, none, none⟩ =
      .ok ⟨none, some ⟨35, 10⟩, none, none, none⟩ ∧
    validateFilters ⟨none, some "abc", none, none, none⟩ =
      .error .invalidFilter ∧
    validateFilters ⟨none, some "12", none, none, none⟩ =
      .ok ⟨none, some ⟨12, 1⟩, none, none, none⟩ ∧
    validateFilters ⟨some "yes", none, none, none, none⟩ =
      .error .invalidFilter ∧
    validateFilters ⟨none, none, none, none, some "ab"⟩ =
      .error .invalidFilter ∧
    validateFilters ⟨none, some "20", some "5", none, none⟩ =
      .error .conflictingFilters := by
  refine ⟨by decide, by decide, by decide, by decide, by decide, by decide⟩

end StrSvc
